import Mathlib

/-! Shallow embedding of the NEON 2-D convolution operator of
`mace/kernels/arm/conv_2d.cc`: shape resolution, strategy selection, tiling
geometry, padding, scratch sizing, the convolution strategies, and the
bias/activation post-processing.  Tensor elements are modelled as exact
rationals standing in for `float`; tensors are modelled as total coordinate
functions in NCHW order, the flat-offset arithmetic of the source being the
usual positional encoding of these coordinates. -/

namespace MaceConv

/-- Element type: exact rationals stand in for `float` values. -/
abbrev Val := ℚ

/-- A tensor viewed as a total function of (batch, channel, height, width). -/
abbrev TensorFn := ℕ → ℕ → ℕ → ℕ → Val

/-- A filter viewed as a total function of (out_channel, in_channel, kh, kw). -/
abbrev FilterFn := ℕ → ℕ → ℕ → ℕ → Val

/-- A bias vector viewed as a function of the output channel. -/
abbrev BiasFn := ℕ → Val

/-- Modelled from the spec: the activation selector passed to `DoActivation`
(`activation.h` is not under src); identity, clamp-at-zero, clamp into
[0, limit]. -/
inductive ActivationType
  | noop
  | relu
  | relux
deriving DecidableEq, Repr

/-- Modelled from the spec: `DoActivation` (not under src) applies the
configured activation elementwise. -/
def doActivation (a : ActivationType) (limit : Val) (x : Val) : Val :=
  match a with
  | .noop => x
  | .relu => max x 0
  | .relux => min (max x 0) limit

/-- The configuration of one call of
`Conv2dFunctor<DeviceType::NEON, float>::operator()`: tensor shapes, strides,
dilations, the resolved total padding per spatial dimension (`paddings[0]`,
`paddings[1]`), and the post-processing parameters. -/
structure Conv2dConfig where
  batch : ℕ
  inChannels : ℕ
  inHeight : ℕ
  inWidth : ℕ
  outChannels : ℕ
  filterH : ℕ
  filterW : ℕ
  strideH : ℕ
  strideW : ℕ
  dilationH : ℕ
  dilationW : ℕ
  padH : ℕ
  padW : ℕ
  activation : ActivationType
  reluxMaxLimit : Val

/-- Modelled from the spec: `CalcNCHWOutputSize` (not under src) resolves one
output spatial dimension as floor((in + pad - dilation*(k-1) - 1)/stride) + 1,
here in truncated natural arithmetic (exact for valid configurations). -/
def calcOutDim (inDim pad k stride dilation : ℕ) : ℕ :=
  (inDim + pad - (dilation * (k - 1) + 1)) / stride + 1

/-- Resolved output height (`output->dim(2)`). -/
def outHeight (cfg : Conv2dConfig) : ℕ :=
  calcOutDim cfg.inHeight cfg.padH cfg.filterH cfg.strideH cfg.dilationH

/-- Resolved output width (`output->dim(3)`). -/
def outWidth (cfg : Conv2dConfig) : ℕ :=
  calcOutDim cfg.inWidth cfg.padW cfg.filterW cfg.strideW cfg.dilationW

/-- The shape the output tensor is resized to (`output->Resize(output_shape)`). -/
def outputShape (cfg : Conv2dConfig) : List ℕ :=
  [cfg.batch, cfg.outChannels, outHeight cfg, outWidth cfg]

/-- `padded_input_height = input_height + paddings[0]`. -/
def paddedInputHeight (cfg : Conv2dConfig) : ℕ := cfg.inHeight + cfg.padH

/-- `padded_input_width = input_width + paddings[1]`. -/
def paddedInputWidth (cfg : Conv2dConfig) : ℕ := cfg.inWidth + cfg.padW

/-- The five convolution strategies of the dispatch. -/
inductive Strategy
  | winograd
  | fused3x3S1
  | fused3x3S2
  | fused1x1S1
  | generic
deriving DecidableEq, Repr

/-- `use_winograd` (USE_WINOGRAD is defined to 1). -/
def useWinograd (fh fw sh sw dh dw inC outC : ℕ) : Bool :=
  fh = 3 && fw = 3 && sh = 1 && sw = 1 && dh = 1 && dw = 1 && 8 ≤ inC && 8 ≤ outC

/-- `use_neon_3x3_s1`. -/
def useNeon3x3S1 (fh fw sh sw dh dw : ℕ) : Bool :=
  fh = 3 && fw = 3 && sh = 1 && sw = 1 && dh = 1 && dw = 1

/-- `use_neon_3x3_s2`. -/
def useNeon3x3S2 (fh fw sh sw dh dw : ℕ) : Bool :=
  fh = 3 && fw = 3 && sh = 2 && sw = 2 && dh = 1 && dw = 1

/-- `use_neon_1x1_s1`. -/
def useNeon1x1S1 (fh fw sh sw dh dw : ℕ) : Bool :=
  fh = 1 && fw = 1 && sh = 1 && sw = 1 && dh = 1 && dw = 1

/-- The strategy dispatch: the if/else-if chain choosing `conv_func`,
first match wins. -/
def selectStrategy (fh fw sh sw dh dw inC outC : ℕ) : Strategy :=
  if useWinograd fh fw sh sw dh dw inC outC then .winograd
  else if useNeon3x3S1 fh fw sh sw dh dw then .fused3x3S1
  else if useNeon3x3S2 fh fw sh sw dh dw then .fused3x3S2
  else if useNeon1x1S1 fh fw sh sw dh dw then .fused1x1S1
  else .generic

/-- The strategy selected for a configuration. -/
def cfgStrategy (cfg : Conv2dConfig) : Strategy :=
  selectStrategy cfg.filterH cfg.filterW cfg.strideH cfg.strideW
    cfg.dilationH cfg.dilationW cfg.inChannels cfg.outChannels

/-- Modelled from the spec: `RoundUp` (mace utility header, not under src)
rounds `n` up to the next multiple of `factor`. -/
def roundUp (n factor : ℕ) : ℕ := (n + factor - 1) / factor * factor

/-- The tiling geometry computed before scratch sizing: extended input/output
extents and the final four padding amounts. -/
structure Geometry where
  extraInH : ℕ
  extraInW : ℕ
  extraOutH : ℕ
  extraOutW : ℕ
  padTop : ℕ
  padBottom : ℕ
  padLeft : ℕ
  padRight : ℕ
deriving DecidableEq, Repr

/-- The tiling/padding computation of the operator body: the initial extents
and the per-strategy extension branches; the bottom/right pads absorb any
shortfall between extended and naturally padded extents. -/
def geometry (cfg : Conv2dConfig) : Geometry :=
  let pih := paddedInputHeight cfg
  let piw := paddedInputWidth cfg
  let h := outHeight cfg
  let w := outWidth cfg
  let pt := cfg.padH / 2
  let pb := cfg.padH - pt
  let pl := cfg.padW / 2
  let pr := cfg.padW - pl
  match cfgStrategy cfg with
  | .winograd =>
    let eoh := roundUp h 6
    let eih := max pih (eoh + 2)
    let eow := roundUp w 6
    let eiw := max piw (eow + 2)
    ⟨eih, eiw, eoh, eow, pt, pb + (eih - pih), pl, pr + (eiw - piw)⟩
  | .fused3x3S1 =>
    let eoh := roundUp h 2
    let eih := max pih (eoh + 2)
    let eow := roundUp w 4
    let eiw := max piw (eow + 2)
    ⟨eih, eiw, eoh, eow, pt, pb + (eih - pih), pl, pr + (eiw - piw)⟩
  | .fused3x3S2 =>
    let eoh := h
    let eih := max pih ((eoh - 1) * 2 + 3)
    let eow := roundUp w 4
    let eiw := max piw ((eow - 1) * 2 + 3)
    ⟨eih, eiw, eoh, eow, pt, pb + (eih - pih), pl, pr + (eiw - piw)⟩
  | .fused1x1S1 => ⟨pih, piw, h, w, pt, pb, pl, pr⟩
  | .generic => ⟨pih, piw, h, w, pt, pb, pl, pr⟩

/-- Modelled from the spec: `ConstructNCHWInputWithSpecificPadding` (not under
src) fills a zero buffer and copies the input at offset (pad_top, pad_left);
as a coordinate function the result depends only on the top/left pads. -/
def padInput (input : TensorFn) (inH inW padTop padLeft : ℕ) : TensorFn :=
  fun b c h w =>
    if padTop ≤ h ∧ h < padTop + inH ∧ padLeft ≤ w ∧ w < padLeft + inW then
      input b c (h - padTop) (w - padLeft)
    else 0

/-- `output->Clear()` (and `padded_output.Clear()`): a zero-filled buffer,
whatever the previous contents were. -/
def clearTensor (_prev : TensorFn) : TensorFn := fun _ _ _ _ => 0

/-- The generic direct convolution `Conv2dNCHW` (six nested loops over batch,
out_channel, out_h, out_w, in_channel, kh, kw); it accumulates onto the
existing output contents `out0`. -/
def conv2dNCHW (input : TensorFn) (filter : FilterFn)
    (inC fH fW sH sW dH dW : ℕ) (out0 : TensorFn) : TensorFn :=
  fun b m h w =>
    out0 b m h w +
      ∑ c ∈ Finset.range inC, ∑ kh ∈ Finset.range fH, ∑ kw ∈ Finset.range fW,
        input b c (h * sH + kh * dH) (w * sW + kw * dW) * filter m c kh kw

/-- Modelled from the spec: `Conv2dNeonK3x3S1` (vectorized microkernel, not
under src) computes the same mathematical 3x3 stride-1 convolution, fully
overwriting its output. -/
def conv2dNeonK3x3S1 (input : TensorFn) (filter : FilterFn) (inC : ℕ) :
    TensorFn :=
  fun b m h w =>
    ∑ c ∈ Finset.range inC, ∑ kh ∈ Finset.range 3, ∑ kw ∈ Finset.range 3,
      input b c (h + kh) (w + kw) * filter m c kh kw

/-- Modelled from the spec: `Conv2dNeonK3x3S2` (vectorized microkernel, not
under src) computes the same mathematical 3x3 stride-2 convolution, fully
overwriting its output. -/
def conv2dNeonK3x3S2 (input : TensorFn) (filter : FilterFn) (inC : ℕ) :
    TensorFn :=
  fun b m h w =>
    ∑ c ∈ Finset.range inC, ∑ kh ∈ Finset.range 3, ∑ kw ∈ Finset.range 3,
      input b c (h * 2 + kh) (w * 2 + kw) * filter m c kh kw

/-- Modelled from the spec: `Conv2dNeonK1x1S1` (vectorized microkernel, not
under src) computes the 1x1 stride-1 convolution on the buffers it is handed,
fully overwriting its output. -/
def conv2dNeonK1x1S1 (input : TensorFn) (filter : FilterFn) (inC : ℕ) :
    TensorFn :=
  fun b m h w => ∑ c ∈ Finset.range inC, input b c h w * filter m c 0 0

/-- Modelled from the spec: the Winograd filter transform of
`conv_winograd.cc` (not under src).  The transform-domain representation is
abstracted away: the cache stores the filter it was computed from, and
`winoGradConv3x3s1` realises the same mathematical convolution from it. -/
def winogradTransformFilter (filter : FilterFn) : FilterFn := filter

/-- Modelled from the spec: `WinoGradConv3x3s1` (not under src) computes the
same mathematical 3x3 stride-1 convolution from the transformed filter,
fully overwriting its output. -/
def winoGradConv3x3s1 (input : TensorFn) (tfilter : FilterFn) (inC : ℕ) :
    TensorFn :=
  fun b m h w =>
    ∑ c ∈ Finset.range inC, ∑ kh ∈ Finset.range 3, ∑ kw ∈ Finset.range 3,
      input b c (h + kh) (w + kw) * tfilter m c kh kw

/-- `pad_input_ptr`: the buffer the strategies read; the padded copy exactly
when the extended input extents differ from the raw input extents, otherwise
the input tensor itself. -/
def effectiveInput (cfg : Conv2dConfig) (input : TensorFn) : TensorFn :=
  let g := geometry cfg
  if g.extraInH = cfg.inHeight ∧ g.extraInW = cfg.inWidth then input
  else padInput input cfg.inHeight cfg.inWidth g.padTop g.padLeft

/-- The convolution stage of one call: the selected strategy run on the
effective (possibly padded) input, its result read back at logical
coordinates (the unpack loop copies rows at unchanged (b,c,h,w) coordinates).
The fused 1x1 path reads the raw input, as its closure captures `input_data`
and `output_data` directly; the generic path accumulates onto the cleared
output buffer. -/
def convStage (cfg : Conv2dConfig) (input : TensorFn) (filter : FilterFn)
    (prev : TensorFn) : TensorFn :=
  let ei := effectiveInput cfg input
  match cfgStrategy cfg with
  | .winograd => winoGradConv3x3s1 ei (winogradTransformFilter filter) cfg.inChannels
  | .fused3x3S1 => conv2dNeonK3x3S1 ei filter cfg.inChannels
  | .fused3x3S2 => conv2dNeonK3x3S2 ei filter cfg.inChannels
  | .fused1x1S1 => conv2dNeonK1x1S1 input filter cfg.inChannels
  | .generic =>
    conv2dNCHW ei filter cfg.inChannels cfg.filterH cfg.filterW
      cfg.strideH cfg.strideW cfg.dilationH cfg.dilationW (clearTensor prev)

/-- The bias post-processing loop: each bias element added in place to every
spatial position of its output channel. -/
def addBias (t : TensorFn) (bias : Option BiasFn) : TensorFn :=
  fun b m h w =>
    t b m h w + match bias with | none => 0 | some bv => bv m

/-- The output before `DoActivation`: convolution stage plus bias. -/
def preActivationOutput (cfg : Conv2dConfig) (input : TensorFn)
    (filter : FilterFn) (bias : Option BiasFn) (prev : TensorFn) : TensorFn :=
  addBias (convStage cfg input filter prev) bias

/-- The full operator: resolve shapes, clear the output, run the selected
strategy, unpack, add bias, apply the activation.  `prev` is the output
tensor's contents before the call. -/
def runConv2d (cfg : Conv2dConfig) (input : TensorFn) (filter : FilterFn)
    (bias : Option BiasFn) (prev : TensorFn) : TensorFn :=
  fun b m h w =>
    doActivation cfg.activation cfg.reluxMaxLimit
      (preActivationOutput cfg input filter bias prev b m h w)

/-- The input buffer the generic reference path would read: the padded copy
exactly when the total padding is nonzero (for the generic strategy the
extended extents equal the naturally padded extents). -/
def referenceInput (cfg : Conv2dConfig) (input : TensorFn) : TensorFn :=
  if cfg.padH = 0 ∧ cfg.padW = 0 then input
  else padInput input cfg.inHeight cfg.inWidth (cfg.padH / 2) (cfg.padW / 2)

/-- The convolution stage of the generic direct-convolution reference:
`Conv2dNCHW` on the naturally padded input, accumulating onto the cleared
output. -/
def referenceConvStage (cfg : Conv2dConfig) (input : TensorFn)
    (filter : FilterFn) (prev : TensorFn) : TensorFn :=
  conv2dNCHW (referenceInput cfg input) filter cfg.inChannels cfg.filterH
    cfg.filterW cfg.strideH cfg.strideW cfg.dilationH cfg.dilationW
    (clearTensor prev)

/-- The full operator with the strategy forced to the generic reference. -/
def referenceRun (cfg : Conv2dConfig) (input : TensorFn) (filter : FilterFn)
    (bias : Option BiasFn) (prev : TensorFn) : TensorFn :=
  fun b m h w =>
    doActivation cfg.activation cfg.reluxMaxLimit
      (addBias (referenceConvStage cfg input filter prev) bias b m h w)

/-- `tile_count = tile_height_count * tile_width_count` on the Winograd
path (extents divided by the out-tile size 6). -/
def winogradTileCount (cfg : Conv2dConfig) : ℕ :=
  ((geometry cfg).extraOutH / 6) * ((geometry cfg).extraOutW / 6)

/-- `transformed_input_size`: bytes of the `{64, batch, in_channels,
tile_count}` shape (in_tile_area = (6+2)*(6+2) = 64, sizeof(float) = 4);
zero unless Winograd is selected. -/
def transformedInputSize (cfg : Conv2dConfig) : ℕ :=
  if cfgStrategy cfg = .winograd then
    64 * cfg.batch * cfg.inChannels * winogradTileCount cfg * 4
  else 0

/-- `transformed_output_size`: bytes of the `{64, batch, channels,
tile_count}` shape; zero unless Winograd is selected. -/
def transformedOutputSize (cfg : Conv2dConfig) : ℕ :=
  if cfgStrategy cfg = .winograd then
    64 * cfg.batch * cfg.outChannels * winogradTileCount cfg * 4
  else 0

/-- `padded_input_size`: included when the extended input extents differ from
the raw input extents (the source compares against `input_height` and
`input_width`). -/
def paddedInputSize (cfg : Conv2dConfig) : ℕ :=
  let g := geometry cfg
  if g.extraInH ≠ cfg.inHeight ∨ g.extraInW ≠ cfg.inWidth then
    cfg.batch * cfg.inChannels * (cfg.inHeight + g.padTop + g.padBottom)
      * (cfg.inWidth + g.padLeft + g.padRight) * 4
  else 0

/-- `padded_output_size`: included when the extended output extents differ
from the logical output shape. -/
def paddedOutputSize (cfg : Conv2dConfig) : ℕ :=
  let g := geometry cfg
  if g.extraOutH ≠ outHeight cfg ∨ g.extraOutW ≠ outWidth cfg then
    cfg.batch * cfg.outChannels * g.extraOutH * g.extraOutW * 4
  else 0

/-- `total_scratch_size`: the sum of the four conditional components. -/
def totalScratchSize (cfg : Conv2dConfig) : ℕ :=
  transformedInputSize cfg + transformedOutputSize cfg
    + paddedInputSize cfg + paddedOutputSize cfg

/-- Modelled from the spec: the scratch buffer (mace core, not under src) is
a byte region with a monotonic allocation cursor and a capacity that never
shrinks. -/
structure ScratchArena where
  capacity : ℕ
  cursor : ℕ
deriving DecidableEq, Repr

/-- Modelled from the spec: `Rewind` resets the cursor to zero. -/
def ScratchArena.rewind (a : ScratchArena) : ScratchArena :=
  ⟨a.capacity, 0⟩

/-- Modelled from the spec: `GrowSize` grows the capacity when the requested
total exceeds it, and never shrinks it. -/
def ScratchArena.growSize (a : ScratchArena) (n : ℕ) : ScratchArena :=
  ⟨max a.capacity n, a.cursor⟩

/-- A view handed out by the arena: a byte offset and a byte size. -/
structure ScratchView where
  offset : ℕ
  size : ℕ
deriving DecidableEq, Repr

/-- Modelled from the spec: `Scratch(size)` returns the view at the cursor
and advances the cursor by the size. -/
def ScratchArena.scratch (a : ScratchArena) (n : ℕ) :
    ScratchView × ScratchArena :=
  (⟨a.cursor, n⟩, ⟨a.capacity, a.cursor + n⟩)

/-- The per-call scratch protocol of the operator: rewind, grow to the total,
then hand out the four views in the fixed order transformed_input,
transformed_output, padded_input, padded_output. -/
def allocateScratchViews (cfg : Conv2dConfig) (a0 : ScratchArena) :
    (ScratchView × ScratchView × ScratchView × ScratchView) × ScratchArena :=
  let a1 := (a0.rewind).growSize (totalScratchSize cfg)
  let r1 := a1.scratch (transformedInputSize cfg)
  let r2 := r1.2.scratch (transformedOutputSize cfg)
  let r3 := r2.2.scratch (paddedInputSize cfg)
  let r4 := r3.2.scratch (paddedOutputSize cfg)
  ((r1.1, r2.1, r3.1, r4.1), r4.2)

/-- The operator-instance state behind the Winograd filter-transform cache:
the `is_filter_transformed_` flag and the `transformed_filter_` buffer. -/
structure WinogradCacheState where
  isFilterTransformed : Bool
  transformedFilter : FilterFn

/-- A fresh operator instance: flag unset, cache buffer uninitialized
(modelled as zeros). -/
def freshWinogradState : WinogradCacheState :=
  ⟨false, fun _ _ _ _ => 0⟩

/-- One invocation of the Winograd path: modelled from the spec,
`WinoGradConv3x3s1` (not under src) transforms the filter into the cache
exactly when the flag is unset, and computes the output from the cached
transform; the closure then sets `is_filter_transformed_` to true.  Returns
the output, the new cache state, and how many filter transforms ran. -/
def winogradInvoke (st : WinogradCacheState) (cfg : Conv2dConfig)
    (input : TensorFn) (filter : FilterFn) :
    TensorFn × WinogradCacheState × ℕ :=
  let tf := if st.isFilterTransformed then st.transformedFilter
            else winogradTransformFilter filter
  let n := if st.isFilterTransformed then 0 else 1
  (winoGradConv3x3s1 (effectiveInput cfg input) tf cfg.inChannels, ⟨true, tf⟩, n)

lemma cfgStrategy_winograd_iff (cfg : Conv2dConfig) :
    cfgStrategy cfg = .winograd ↔
      cfg.filterH = 3 ∧ cfg.filterW = 3 ∧ cfg.strideH = 1 ∧ cfg.strideW = 1 ∧
      cfg.dilationH = 1 ∧ cfg.dilationW = 1 ∧
      8 ≤ cfg.inChannels ∧ 8 ≤ cfg.outChannels := by
  unfold cfgStrategy selectStrategy useWinograd useNeon3x3S1 useNeon3x3S2 useNeon1x1S1
  split_ifs with h1 h2 h3 h4 <;> simp_all

lemma cfgStrategy_fused3x3S1_iff (cfg : Conv2dConfig) :
    cfgStrategy cfg = .fused3x3S1 ↔
      cfg.filterH = 3 ∧ cfg.filterW = 3 ∧ cfg.strideH = 1 ∧ cfg.strideW = 1 ∧
      cfg.dilationH = 1 ∧ cfg.dilationW = 1 ∧
      ¬(8 ≤ cfg.inChannels ∧ 8 ≤ cfg.outChannels) := by
  unfold cfgStrategy selectStrategy useWinograd useNeon3x3S1 useNeon3x3S2 useNeon1x1S1
  split_ifs with h1 h2 h3 h4 <;> simp_all

lemma cfgStrategy_fused3x3S2_iff (cfg : Conv2dConfig) :
    cfgStrategy cfg = .fused3x3S2 ↔
      cfg.filterH = 3 ∧ cfg.filterW = 3 ∧ cfg.strideH = 2 ∧ cfg.strideW = 2 ∧
      cfg.dilationH = 1 ∧ cfg.dilationW = 1 := by
  unfold cfgStrategy selectStrategy useWinograd useNeon3x3S1 useNeon3x3S2 useNeon1x1S1
  split_ifs with h1 h2 h3 h4 <;> simp_all

lemma cfgStrategy_fused1x1S1_iff (cfg : Conv2dConfig) :
    cfgStrategy cfg = .fused1x1S1 ↔
      cfg.filterH = 1 ∧ cfg.filterW = 1 ∧ cfg.strideH = 1 ∧ cfg.strideW = 1 ∧
      cfg.dilationH = 1 ∧ cfg.dilationW = 1 := by
  unfold cfgStrategy selectStrategy useWinograd useNeon3x3S1 useNeon3x3S2 useNeon1x1S1
  split_ifs with h1 h2 h3 h4 <;> simp_all

lemma geometry_padTop (cfg : Conv2dConfig) :
    (geometry cfg).padTop = cfg.padH / 2 := by
  unfold geometry
  cases h : cfgStrategy cfg <;> simp

lemma geometry_padLeft (cfg : Conv2dConfig) :
    (geometry cfg).padLeft = cfg.padW / 2 := by
  unfold geometry
  cases h : cfgStrategy cfg <;> simp

lemma geometry_extraInH_ge (cfg : Conv2dConfig) :
    paddedInputHeight cfg ≤ (geometry cfg).extraInH := by
  unfold geometry
  cases h : cfgStrategy cfg <;> simp [le_max_left]

lemma geometry_extraInW_ge (cfg : Conv2dConfig) :
    paddedInputWidth cfg ≤ (geometry cfg).extraInW := by
  unfold geometry
  cases h : cfgStrategy cfg <;> simp [le_max_left]

lemma geometry_padBottom (cfg : Conv2dConfig) :
    (geometry cfg).padBottom =
      (cfg.padH - cfg.padH / 2) + ((geometry cfg).extraInH - paddedInputHeight cfg) := by
  unfold geometry
  cases h : cfgStrategy cfg <;> simp

lemma geometry_padRight (cfg : Conv2dConfig) :
    (geometry cfg).padRight =
      (cfg.padW - cfg.padW / 2) + ((geometry cfg).extraInW - paddedInputWidth cfg) := by
  unfold geometry
  cases h : cfgStrategy cfg <;> simp

lemma effectiveInput_eq_referenceInput (cfg : Conv2dConfig) (input : TensorFn)
    (b c h w : ℕ) (hh : h < paddedInputHeight cfg)
    (hw : w < paddedInputWidth cfg) :
    effectiveInput cfg input b c h w = referenceInput cfg input b c h w := by
  have hpt := geometry_padTop cfg
  have hpl := geometry_padLeft cfg
  have hgeH := geometry_extraInH_ge cfg
  have hgeW := geometry_extraInW_ge cfg
  unfold effectiveInput referenceInput
  split_ifs with h1 h2 h3
  · rfl
  · exfalso
    unfold paddedInputHeight paddedInputWidth at *
    omega
  · rw [hpt, hpl]
    obtain ⟨hp0, hq0⟩ := h3
    have hh' : h < cfg.inHeight := by
      unfold paddedInputHeight at hh
      omega
    have hw' : w < cfg.inWidth := by
      unfold paddedInputWidth at hw
      omega
    simp [padInput, hp0, hq0, hh', hw']
  · rw [hpt, hpl]

lemma read_lt_padded (inDim pad k s d h kh : ℕ)
    (hv : d * (k - 1) + 1 ≤ inDim + pad)
    (hh : h < calcOutDim inDim pad k s d) (hk : kh < k) :
    h * s + kh * d < inDim + pad := by
  unfold calcOutDim at hh
  have h1 : h ≤ (inDim + pad - (d * (k - 1) + 1)) / s := by omega
  have h2 : h * s ≤ inDim + pad - (d * (k - 1) + 1) :=
    le_trans (Nat.mul_le_mul_right s h1) (Nat.div_mul_le_self _ s)
  have h3 : kh * d ≤ (k - 1) * d := Nat.mul_le_mul_right d (by omega)
  have h4 : (k - 1) * d = d * (k - 1) := Nat.mul_comm _ _
  omega

lemma conv2dNCHW_effective_eq_reference (cfg : Conv2dConfig) (input : TensorFn)
    (filter : FilterFn) (prev : TensorFn) (b m h w : ℕ)
    (hvH : cfg.dilationH * (cfg.filterH - 1) + 1 ≤ paddedInputHeight cfg)
    (hvW : cfg.dilationW * (cfg.filterW - 1) + 1 ≤ paddedInputWidth cfg)
    (hh : h < outHeight cfg) (hw : w < outWidth cfg) :
    conv2dNCHW (effectiveInput cfg input) filter cfg.inChannels cfg.filterH
      cfg.filterW cfg.strideH cfg.strideW cfg.dilationH cfg.dilationW
      (clearTensor prev) b m h w
      = referenceConvStage cfg input filter prev b m h w := by
  unfold referenceConvStage conv2dNCHW
  congr 1
  refine Finset.sum_congr rfl fun c _ => ?_
  refine Finset.sum_congr rfl fun kh hkh => ?_
  refine Finset.sum_congr rfl fun kw hkw => ?_
  have hkh' := Finset.mem_range.mp hkh
  have hkw' := Finset.mem_range.mp hkw
  unfold outHeight at hh
  unfold outWidth at hw
  have hbh : h * cfg.strideH + kh * cfg.dilationH < paddedInputHeight cfg := by
    unfold paddedInputHeight
    exact read_lt_padded cfg.inHeight cfg.padH cfg.filterH cfg.strideH
      cfg.dilationH h kh hvH hh hkh'
  have hbw : w * cfg.strideW + kw * cfg.dilationW < paddedInputWidth cfg := by
    unfold paddedInputWidth
    exact read_lt_padded cfg.inWidth cfg.padW cfg.filterW cfg.strideW
      cfg.dilationW w kw hvW hw hkw'
  rw [effectiveInput_eq_referenceInput cfg input b c _ _ hbh hbw]

lemma convStage_winograd_eq (cfg : Conv2dConfig) (input : TensorFn)
    (filter : FilterFn) (prev : TensorFn) (b m h w : ℕ)
    (hstrat : cfgStrategy cfg = .winograd)
    (hvH : cfg.dilationH * (cfg.filterH - 1) + 1 ≤ paddedInputHeight cfg)
    (hvW : cfg.dilationW * (cfg.filterW - 1) + 1 ≤ paddedInputWidth cfg)
    (hh : h < outHeight cfg) (hw : w < outWidth cfg) :
    convStage cfg input filter prev b m h w
      = referenceConvStage cfg input filter prev b m h w := by
  obtain ⟨hf1, hf2, hs1, hs2, hd1, hd2, _, _⟩ :=
    (cfgStrategy_winograd_iff cfg).mp hstrat
  rw [← conv2dNCHW_effective_eq_reference cfg input filter prev b m h w hvH hvW hh hw]
  simp only [convStage, hstrat, winoGradConv3x3s1, winogradTransformFilter,
    conv2dNCHW, clearTensor, zero_add, hf1, hf2, hs1, hs2, hd1, hd2, mul_one]

lemma convStage_3x3s1_eq (cfg : Conv2dConfig) (input : TensorFn)
    (filter : FilterFn) (prev : TensorFn) (b m h w : ℕ)
    (hstrat : cfgStrategy cfg = .fused3x3S1)
    (hvH : cfg.dilationH * (cfg.filterH - 1) + 1 ≤ paddedInputHeight cfg)
    (hvW : cfg.dilationW * (cfg.filterW - 1) + 1 ≤ paddedInputWidth cfg)
    (hh : h < outHeight cfg) (hw : w < outWidth cfg) :
    convStage cfg input filter prev b m h w
      = referenceConvStage cfg input filter prev b m h w := by
  obtain ⟨hf1, hf2, hs1, hs2, hd1, hd2, _⟩ :=
    (cfgStrategy_fused3x3S1_iff cfg).mp hstrat
  rw [← conv2dNCHW_effective_eq_reference cfg input filter prev b m h w hvH hvW hh hw]
  simp only [convStage, hstrat, conv2dNeonK3x3S1, conv2dNCHW, clearTensor,
    zero_add, hf1, hf2, hs1, hs2, hd1, hd2, mul_one]

lemma convStage_3x3s2_eq (cfg : Conv2dConfig) (input : TensorFn)
    (filter : FilterFn) (prev : TensorFn) (b m h w : ℕ)
    (hstrat : cfgStrategy cfg = .fused3x3S2)
    (hvH : cfg.dilationH * (cfg.filterH - 1) + 1 ≤ paddedInputHeight cfg)
    (hvW : cfg.dilationW * (cfg.filterW - 1) + 1 ≤ paddedInputWidth cfg)
    (hh : h < outHeight cfg) (hw : w < outWidth cfg) :
    convStage cfg input filter prev b m h w
      = referenceConvStage cfg input filter prev b m h w := by
  obtain ⟨hf1, hf2, hs1, hs2, hd1, hd2⟩ :=
    (cfgStrategy_fused3x3S2_iff cfg).mp hstrat
  rw [← conv2dNCHW_effective_eq_reference cfg input filter prev b m h w hvH hvW hh hw]
  simp only [convStage, hstrat, conv2dNeonK3x3S2, conv2dNCHW, clearTensor,
    zero_add, hf1, hf2, hs1, hs2, hd1, hd2, mul_one]

lemma convStage_1x1_eq (cfg : Conv2dConfig) (input : TensorFn)
    (filter : FilterFn) (prev : TensorFn) (b m h w : ℕ)
    (hstrat : cfgStrategy cfg = .fused1x1S1)
    (hp0 : cfg.padH = 0) (hq0 : cfg.padW = 0) :
    convStage cfg input filter prev b m h w
      = referenceConvStage cfg input filter prev b m h w := by
  obtain ⟨hf1, hf2, hs1, hs2, hd1, hd2⟩ :=
    (cfgStrategy_fused1x1S1_iff cfg).mp hstrat
  have hri : referenceInput cfg input = input := by
    simp [referenceInput, hp0, hq0]
  simp only [convStage, hstrat, conv2dNeonK1x1S1, referenceConvStage,
    conv2dNCHW, hri, clearTensor, zero_add, hf1, hf2, hs1, hs2, hd1, hd2,
    Finset.sum_range_one, mul_one, zero_mul, add_zero]

/-- C1 (amended): on every configuration where a fast strategy (Winograd,
fused 3x3 stride-1, fused 3x3 stride-2, or fused 1x1 stride-1) is selected —
with the amendment that when the fused 1x1 path is selected the resolved
total padding must be zero — the output of the full operator equals, exactly
(hence within any relative tolerance), the output the generic
direct-convolution reference would produce on the same inputs, at every
logical output coordinate. -/
theorem fast_path_matches_reference (cfg : Conv2dConfig) (input : TensorFn)
    (filter : FilterFn) (bias : Option BiasFn) (prev : TensorFn) (b m h w : ℕ)
    (hvH : cfg.dilationH * (cfg.filterH - 1) + 1 ≤ paddedInputHeight cfg)
    (hvW : cfg.dilationW * (cfg.filterW - 1) + 1 ≤ paddedInputWidth cfg)
    (hfast : cfgStrategy cfg ≠ .generic)
    (h1x1 : cfgStrategy cfg = .fused1x1S1 → cfg.padH = 0 ∧ cfg.padW = 0)
    (hh : h < outHeight cfg) (hw : w < outWidth cfg) :
    runConv2d cfg input filter bias prev b m h w
      = referenceRun cfg input filter bias prev b m h w := by
  have hcs : convStage cfg input filter prev b m h w
      = referenceConvStage cfg input filter prev b m h w := by
    rcases hstrat : cfgStrategy cfg with _ | _ | _ | _ | _
    · exact convStage_winograd_eq cfg input filter prev b m h w hstrat hvH hvW hh hw
    · exact convStage_3x3s1_eq cfg input filter prev b m h w hstrat hvH hvW hh hw
    · exact convStage_3x3s2_eq cfg input filter prev b m h w hstrat hvH hvW hh hw
    · obtain ⟨hp0, hq0⟩ := h1x1 hstrat
      exact convStage_1x1_eq cfg input filter prev b m h w hstrat hp0 hq0
    · exact absurd hstrat hfast
  unfold runConv2d referenceRun preActivationOutput addBias
  rw [hcs]

/-- The configuration of the C1 counterexample: 1x1 filter, stride 1,
dilation 1, explicit total padding 2 in each spatial dimension. -/
def c1Cfg : Conv2dConfig :=
  { batch := 1, inChannels := 1, inHeight := 1, inWidth := 1, outChannels := 1,
    filterH := 1, filterW := 1, strideH := 1, strideW := 1, dilationH := 1,
    dilationW := 1, padH := 2, padW := 2, activation := .noop,
    reluxMaxLimit := 0 }

/-- The constant-2 input of the C1 counterexample. -/
def c1Input : TensorFn := fun _ _ _ _ => 2

/-- The constant-3 filter of the C1 counterexample. -/
def c1Filter : FilterFn := fun _ _ _ _ => 3

/-- An all-zero tensor (prior output contents). -/
def zeroTensor : TensorFn := fun _ _ _ _ => 0

/-- C1 counterexample: with a 1x1 filter, stride 1 and explicit total padding
2, a fast strategy (fused 1x1) is selected, yet at logical output coordinate
(0,0,0,0) the operator returns 6 while the generic direct-convolution
reference returns 0 — the claim as stated fails. -/
theorem fast_path_claim_counterexample :
    cfgStrategy c1Cfg ≠ .generic ∧ (0 : ℕ) < outHeight c1Cfg ∧
    (0 : ℕ) < outWidth c1Cfg ∧
    runConv2d c1Cfg c1Input c1Filter none zeroTensor 0 0 0 0
      ≠ referenceRun c1Cfg c1Input c1Filter none zeroTensor 0 0 0 0 := by
  have hstrat : cfgStrategy c1Cfg = .fused1x1S1 := by decide
  refine ⟨by decide, by decide, by decide, ?_⟩
  have hL : runConv2d c1Cfg c1Input c1Filter none zeroTensor 0 0 0 0 = 6 := by
    simp only [runConv2d, preActivationOutput, addBias, convStage, hstrat]
    norm_num [conv2dNeonK1x1S1, c1Input, c1Filter, doActivation, c1Cfg,
      Finset.sum_range_one]
  have hR : referenceRun c1Cfg c1Input c1Filter none zeroTensor 0 0 0 0 = 0 := by
    simp [referenceRun, addBias, referenceConvStage, conv2dNCHW, referenceInput,
      padInput, clearTensor, c1Cfg, c1Input, doActivation, Finset.sum_range_one]
  rw [hL, hR]
  norm_num

/-- The configuration of the C1 witness: 3x3 filter, stride 1, no padding,
selecting the fused 3x3 stride-1 strategy. -/
def c1WitnessCfg : Conv2dConfig :=
  { batch := 1, inChannels := 1, inHeight := 4, inWidth := 4, outChannels := 1,
    filterH := 3, filterW := 3, strideH := 1, strideW := 1, dilationH := 1,
    dilationW := 1, padH := 0, padW := 0, activation := .noop,
    reluxMaxLimit := 0 }

/-- Witness for C1: the amended theorem applied at a concrete fused 3x3
stride-1 configuration. -/
theorem fast_path_matches_reference_witness :
    cfgStrategy c1WitnessCfg ≠ .generic ∧
    runConv2d c1WitnessCfg c1Input c1Filter none zeroTensor 0 0 0 0
      = referenceRun c1WitnessCfg c1Input c1Filter none zeroTensor 0 0 0 0 :=
  ⟨by decide,
   fast_path_matches_reference c1WitnessCfg c1Input c1Filter none zeroTensor
     0 0 0 0 (by decide) (by decide) (by decide) (by decide) (by decide)
     (by decide)⟩

/-- C7 (amended): the fused 1x1 stride-1 strategy operates directly on the
unpadded input tensor and the logical output tensor — its result is the 1x1
kernel applied to the raw input, bypassing the padded/extended buffers — and,
provided the resolved total padding is zero, it produces exactly the result
of the generic direct-convolution reference. -/
theorem fused1x1_direct_correct (cfg : Conv2dConfig) (input : TensorFn)
    (filter : FilterFn) (prev : TensorFn) (b m h w : ℕ)
    (hstrat : cfgStrategy cfg = .fused1x1S1)
    (hp0 : cfg.padH = 0) (hq0 : cfg.padW = 0) :
    convStage cfg input filter prev b m h w
      = conv2dNeonK1x1S1 input filter cfg.inChannels b m h w
    ∧ convStage cfg input filter prev b m h w
      = referenceConvStage cfg input filter prev b m h w :=
  ⟨by simp only [convStage, hstrat],
   convStage_1x1_eq cfg input filter prev b m h w hstrat hp0 hq0⟩

/-- The configuration of the C7 counterexample: 1x1 filter, stride 1,
explicit total padding 4 in each spatial dimension. -/
def c7Cfg : Conv2dConfig :=
  { batch := 1, inChannels := 1, inHeight := 1, inWidth := 1, outChannels := 1,
    filterH := 1, filterW := 1, strideH := 1, strideW := 1, dilationH := 1,
    dilationW := 1, padH := 4, padW := 4, activation := .noop,
    reluxMaxLimit := 0 }

/-- The constant-1 input of the C7 counterexample. -/
def c7Input : TensorFn := fun _ _ _ _ => 1

/-- The constant-1 filter of the C7 counterexample. -/
def c7Filter : FilterFn := fun _ _ _ _ => 1

/-- C7 counterexample: under explicit nonzero padding the fused 1x1 path is
still selected and still reads the unpadded input at the logical output
coordinates, so at (0,0,0,0) it returns 1 while the correct (reference)
convolution of the padded input returns 0 — the unconditional correctness
claim fails. -/
theorem fused1x1_claim_counterexample :
    cfgStrategy c7Cfg = .fused1x1S1 ∧
    runConv2d c7Cfg c7Input c7Filter none zeroTensor 0 0 0 0
      ≠ referenceRun c7Cfg c7Input c7Filter none zeroTensor 0 0 0 0 := by
  have hstrat : cfgStrategy c7Cfg = .fused1x1S1 := by decide
  refine ⟨hstrat, ?_⟩
  have hL : runConv2d c7Cfg c7Input c7Filter none zeroTensor 0 0 0 0 = 1 := by
    simp only [runConv2d, preActivationOutput, addBias, convStage, hstrat]
    norm_num [conv2dNeonK1x1S1, c7Input, c7Filter, doActivation, c7Cfg,
      Finset.sum_range_one]
  have hR : referenceRun c7Cfg c7Input c7Filter none zeroTensor 0 0 0 0 = 0 := by
    simp [referenceRun, addBias, referenceConvStage, conv2dNCHW, referenceInput,
      padInput, clearTensor, c7Cfg, c7Input, doActivation, Finset.sum_range_one]
  rw [hL, hR]
  norm_num

/-- The configuration of the C7 witness: 1x1 filter, stride 1, no padding. -/
def c7WitnessCfg : Conv2dConfig :=
  { batch := 1, inChannels := 2, inHeight := 2, inWidth := 2, outChannels := 1,
    filterH := 1, filterW := 1, strideH := 1, strideW := 1, dilationH := 1,
    dilationW := 1, padH := 0, padW := 0, activation := .noop,
    reluxMaxLimit := 0 }

/-- Witness for C7: the amended theorem applied at a concrete zero-padding
1x1 configuration. -/
theorem fused1x1_direct_correct_witness :
    cfgStrategy c7WitnessCfg = .fused1x1S1 ∧
    (convStage c7WitnessCfg c7Input c7Filter zeroTensor 0 0 0 0
      = conv2dNeonK1x1S1 c7Input c7Filter c7WitnessCfg.inChannels 0 0 0 0
    ∧ convStage c7WitnessCfg c7Input c7Filter zeroTensor 0 0 0 0
      = referenceConvStage c7WitnessCfg c7Input c7Filter zeroTensor 0 0 0 0) :=
  ⟨by decide,
   fused1x1_direct_correct c7WitnessCfg c7Input c7Filter zeroTensor 0 0 0 0
     (by decide) (by decide) (by decide)⟩

lemma calcOutDim_fdiv (inD pad k s d : ℕ) (hk : 1 ≤ k)
    (hv : d * (k - 1) + 1 ≤ inD + pad) :
    (calcOutDim inD pad k s d : ℤ)
      = Int.fdiv ((inD : ℤ) + pad - d * ((k : ℤ) - 1) - 1) s + 1 := by
  have e1 : (inD : ℤ) + pad - d * ((k : ℤ) - 1) - 1
      = ((inD + pad - (d * (k - 1) + 1) : ℕ) : ℤ) := by
    rw [Nat.cast_sub hv]
    push_cast [Nat.cast_sub hk]
    ring
  rw [e1, ← Int.ofNat_fdiv]
  unfold calcOutDim
  push_cast
  ring

/-- C2: for every valid configuration, the resolved output spatial size in
each dimension equals floor((in + total_pad - dilation*(k-1) - 1)/stride)+1
(stated with the floor division `Int.fdiv` over ℤ), and the output tensor is
resized to shape [N, OutC, Hout, Wout] with these sizes. -/
theorem output_shape_resolution (cfg : Conv2dConfig)
    (hkH : 1 ≤ cfg.filterH) (hkW : 1 ≤ cfg.filterW)
    (hvH : cfg.dilationH * (cfg.filterH - 1) + 1 ≤ cfg.inHeight + cfg.padH)
    (hvW : cfg.dilationW * (cfg.filterW - 1) + 1 ≤ cfg.inWidth + cfg.padW) :
    outputShape cfg = [cfg.batch, cfg.outChannels, outHeight cfg, outWidth cfg]
  ∧ (outHeight cfg : ℤ)
      = Int.fdiv ((cfg.inHeight : ℤ) + cfg.padH
          - cfg.dilationH * ((cfg.filterH : ℤ) - 1) - 1) cfg.strideH + 1
  ∧ (outWidth cfg : ℤ)
      = Int.fdiv ((cfg.inWidth : ℤ) + cfg.padW
          - cfg.dilationW * ((cfg.filterW : ℤ) - 1) - 1) cfg.strideW + 1 :=
  ⟨rfl,
   calcOutDim_fdiv cfg.inHeight cfg.padH cfg.filterH cfg.strideH cfg.dilationH
     hkH hvH,
   calcOutDim_fdiv cfg.inWidth cfg.padW cfg.filterW cfg.strideW cfg.dilationW
     hkW hvW⟩

/-- The configuration of the C2 witness: in 5, pad 2, filter 3, stride 2,
dilation 1 in both dimensions. -/
def c2WitnessCfg : Conv2dConfig :=
  { batch := 2, inChannels := 3, inHeight := 5, inWidth := 5, outChannels := 4,
    filterH := 3, filterW := 3, strideH := 2, strideW := 2, dilationH := 1,
    dilationW := 1, padH := 2, padW := 2, activation := .noop,
    reluxMaxLimit := 0 }

/-- Witness for C2: the theorem applied at a concrete configuration
(in 5, pad 2, filter 3, stride 2, dilation 1 in both dimensions). -/
theorem output_shape_resolution_witness :
    outputShape c2WitnessCfg
        = [c2WitnessCfg.batch, c2WitnessCfg.outChannels, outHeight c2WitnessCfg,
           outWidth c2WitnessCfg]
  ∧ (outHeight c2WitnessCfg : ℤ)
      = Int.fdiv ((c2WitnessCfg.inHeight : ℤ) + c2WitnessCfg.padH
          - c2WitnessCfg.dilationH * ((c2WitnessCfg.filterH : ℤ) - 1) - 1)
          c2WitnessCfg.strideH + 1
  ∧ (outWidth c2WitnessCfg : ℤ)
      = Int.fdiv ((c2WitnessCfg.inWidth : ℤ) + c2WitnessCfg.padW
          - c2WitnessCfg.dilationW * ((c2WitnessCfg.filterW : ℤ) - 1) - 1)
          c2WitnessCfg.strideW + 1 :=
  output_shape_resolution c2WitnessCfg (by decide) (by decide) (by decide)
    (by decide)

/-- C3: strategy selection is a pure function of (filter_h, filter_w,
stride_h, stride_w, dilation_h, dilation_w, in_channels, out_channels),
evaluated in the priority order Winograd, fused 3x3 stride-1, fused 3x3
stride-2, fused 1x1 stride-1, generic, first match winning; in particular
Winograd is selected exactly when the filter is 3x3, stride 1, dilation 1,
in_channels >= 8 and out_channels >= 8. -/
theorem strategy_selection_spec (fh fw sh sw dh dw inC outC : ℕ) :
    (selectStrategy fh fw sh sw dh dw inC outC = .winograd ↔
      fh = 3 ∧ fw = 3 ∧ sh = 1 ∧ sw = 1 ∧ dh = 1 ∧ dw = 1 ∧
        8 ≤ inC ∧ 8 ≤ outC)
  ∧ (selectStrategy fh fw sh sw dh dw inC outC = .fused3x3S1 ↔
      (fh = 3 ∧ fw = 3 ∧ sh = 1 ∧ sw = 1 ∧ dh = 1 ∧ dw = 1) ∧
        ¬(8 ≤ inC ∧ 8 ≤ outC))
  ∧ (selectStrategy fh fw sh sw dh dw inC outC = .fused3x3S2 ↔
      fh = 3 ∧ fw = 3 ∧ sh = 2 ∧ sw = 2 ∧ dh = 1 ∧ dw = 1)
  ∧ (selectStrategy fh fw sh sw dh dw inC outC = .fused1x1S1 ↔
      fh = 1 ∧ fw = 1 ∧ sh = 1 ∧ sw = 1 ∧ dh = 1 ∧ dw = 1) := by
  unfold selectStrategy useWinograd useNeon3x3S1 useNeon3x3S2 useNeon1x1S1
  refine ⟨?_, ?_, ?_, ?_⟩ <;> (split_ifs with h1 h2 h3 h4 <;> simp_all)

/-- C4: per selected strategy the tiling extents follow the stated formulas:
Winograd rounds the output extents up to multiples of 6 and sets
extra_input = max(natural_padded_input, extra_output + 2); fused 3x3
stride-1 rounds output height to a multiple of 2 and width to a multiple of
4 with the same extra-input rule; fused 3x3 stride-2 keeps
extra_output_h = logical height, rounds width up to a multiple of 4, and
sets extra_input = max(natural_padded_input, (extra_output - 1)*2 + 3) per
dimension; fused 1x1 and generic apply no extension. -/
theorem tiling_extents_spec (cfg : Conv2dConfig) :
    ((geometry cfg).extraOutH, (geometry cfg).extraInH,
     (geometry cfg).extraOutW, (geometry cfg).extraInW) =
      match cfgStrategy cfg with
      | .winograd =>
        (roundUp (outHeight cfg) 6,
         max (paddedInputHeight cfg) (roundUp (outHeight cfg) 6 + 2),
         roundUp (outWidth cfg) 6,
         max (paddedInputWidth cfg) (roundUp (outWidth cfg) 6 + 2))
      | .fused3x3S1 =>
        (roundUp (outHeight cfg) 2,
         max (paddedInputHeight cfg) (roundUp (outHeight cfg) 2 + 2),
         roundUp (outWidth cfg) 4,
         max (paddedInputWidth cfg) (roundUp (outWidth cfg) 4 + 2))
      | .fused3x3S2 =>
        (outHeight cfg,
         max (paddedInputHeight cfg) ((outHeight cfg - 1) * 2 + 3),
         roundUp (outWidth cfg) 4,
         max (paddedInputWidth cfg) ((roundUp (outWidth cfg) 4 - 1) * 2 + 3))
      | .fused1x1S1 =>
        (outHeight cfg, paddedInputHeight cfg, outWidth cfg,
         paddedInputWidth cfg)
      | .generic =>
        (outHeight cfg, paddedInputHeight cfg, outWidth cfg,
         paddedInputWidth cfg) := by
  unfold geometry
  cases h : cfgStrategy cfg <;> simp

/-- C5: the resolved total padding per spatial dimension is split as
before = total >> 1 (i.e. total / 2) and after = total - before, and any
shortfall between the extended and naturally padded extents is added
exclusively to the bottom/right padding: the top/left padding is never
changed by tiling. -/
theorem padding_split_spec (cfg : Conv2dConfig) :
    (geometry cfg).padTop = cfg.padH / 2
  ∧ (geometry cfg).padLeft = cfg.padW / 2
  ∧ (geometry cfg).padBottom
      = (cfg.padH - cfg.padH / 2)
        + ((geometry cfg).extraInH - paddedInputHeight cfg)
  ∧ (geometry cfg).padRight
      = (cfg.padW - cfg.padW / 2)
        + ((geometry cfg).extraInW - paddedInputWidth cfg) :=
  ⟨geometry_padTop cfg, geometry_padLeft cfg, geometry_padBottom cfg,
   geometry_padRight cfg⟩

/-- C6 (amended): the per-call scratch byte total is the exact sum of the
four conditional components — the transformed buffers included only for
Winograd, the padded-input buffer included only if the extended input
extents differ from the tensor's (unpadded) input extents, the padded-output
buffer included only if the extended output extents differ from the logical
output shape — and the arena hands out sequential non-overlapping views in
the fixed order transformed_input, transformed_output, padded_input,
padded_output, covering the total exactly, within capacity. -/
theorem scratch_layout_spec (cfg : Conv2dConfig) (a0 : ScratchArena) :
    totalScratchSize cfg
      = transformedInputSize cfg + transformedOutputSize cfg
        + paddedInputSize cfg + paddedOutputSize cfg
  ∧ (cfgStrategy cfg ≠ .winograd →
      transformedInputSize cfg = 0 ∧ transformedOutputSize cfg = 0)
  ∧ ((geometry cfg).extraInH = cfg.inHeight ∧
      (geometry cfg).extraInW = cfg.inWidth → paddedInputSize cfg = 0)
  ∧ ((geometry cfg).extraOutH = outHeight cfg ∧
      (geometry cfg).extraOutW = outWidth cfg → paddedOutputSize cfg = 0)
  ∧ ((allocateScratchViews cfg a0).1.1.offset = 0
  ∧ (allocateScratchViews cfg a0).1.1.size = transformedInputSize cfg
  ∧ (allocateScratchViews cfg a0).1.2.1.offset
      = (allocateScratchViews cfg a0).1.1.offset
        + (allocateScratchViews cfg a0).1.1.size
  ∧ (allocateScratchViews cfg a0).1.2.1.size = transformedOutputSize cfg
  ∧ (allocateScratchViews cfg a0).1.2.2.1.offset
      = (allocateScratchViews cfg a0).1.2.1.offset
        + (allocateScratchViews cfg a0).1.2.1.size
  ∧ (allocateScratchViews cfg a0).1.2.2.1.size = paddedInputSize cfg
  ∧ (allocateScratchViews cfg a0).1.2.2.2.offset
      = (allocateScratchViews cfg a0).1.2.2.1.offset
        + (allocateScratchViews cfg a0).1.2.2.1.size
  ∧ (allocateScratchViews cfg a0).1.2.2.2.size = paddedOutputSize cfg
  ∧ (allocateScratchViews cfg a0).1.2.2.2.offset
      + (allocateScratchViews cfg a0).1.2.2.2.size = totalScratchSize cfg
  ∧ totalScratchSize cfg ≤ ((allocateScratchViews cfg a0).2).capacity) := by
  refine ⟨rfl, ?_, ?_, ?_, ?_⟩
  · intro h
    constructor <;> simp [transformedInputSize, transformedOutputSize, h]
  · intro h
    simp [paddedInputSize, h.1, h.2]
  · intro h
    simp [paddedOutputSize, h.1, h.2]
  · unfold allocateScratchViews ScratchArena.scratch ScratchArena.rewind
      ScratchArena.growSize totalScratchSize
    simp

/-- The configuration of the C6 counterexample: 5x5 filter (generic path),
total padding 4, no tiling extension. -/
def c6Cfg : Conv2dConfig :=
  { batch := 1, inChannels := 1, inHeight := 6, inWidth := 6, outChannels := 1,
    filterH := 5, filterW := 5, strideH := 1, strideW := 1, dilationH := 1,
    dilationW := 1, padH := 4, padW := 4, activation := .noop,
    reluxMaxLimit := 0 }

/-- C6 counterexample: on the generic path with total padding 4 and no
tiling extension, the extended input extents equal the naturally padded
extents, yet the padded-input scratch component is included (400 bytes,
since the source compares against the unpadded input extents) — the claim
"included only if extended extents differ from the natural padded extents"
fails. -/
theorem scratch_claim_counterexample :
    cfgStrategy c6Cfg = .generic
  ∧ (geometry c6Cfg).extraInH = paddedInputHeight c6Cfg
  ∧ (geometry c6Cfg).extraInW = paddedInputWidth c6Cfg
  ∧ paddedInputSize c6Cfg = 400 := by
  decide

/-- Witness for C6: the amended theorem applied at a concrete configuration
and arena. -/
theorem scratch_layout_spec_witness :
    totalScratchSize c6Cfg
      = transformedInputSize c6Cfg + transformedOutputSize c6Cfg
        + paddedInputSize c6Cfg + paddedOutputSize c6Cfg :=
  (scratch_layout_spec c6Cfg ⟨0, 0⟩).1

/-- C8: on the Winograd path the filter transform is performed exactly once
per operator instance — on the first invocation — and a second invocation of
the same instance with the same filter and inputs reuses the cached
transform, performs no further transform, and yields an identical output. -/
theorem winograd_transform_once (cfg : Conv2dConfig) (input : TensorFn)
    (filter : FilterFn) :
    (winogradInvoke freshWinogradState cfg input filter).2.2
      + (winogradInvoke
          (winogradInvoke freshWinogradState cfg input filter).2.1
          cfg input filter).2.2 = 1
  ∧ (∀ b m h w,
      (winogradInvoke freshWinogradState cfg input filter).1 b m h w
        = (winogradInvoke
            (winogradInvoke freshWinogradState cfg input filter).2.1
            cfg input filter).1 b m h w)
  ∧ (winogradInvoke freshWinogradState cfg input filter).2.1.isFilterTransformed
      = true := by
  simp [winogradInvoke, freshWinogradState]

lemma convStage_zero_filter (cfg : Conv2dConfig) (input : TensorFn)
    (filter : FilterFn) (prev : TensorFn) (b m h w : ℕ)
    (hf : ∀ a c i j, filter a c i j = 0) :
    convStage cfg input filter prev b m h w = 0 := by
  unfold convStage
  cases hs : cfgStrategy cfg <;>
    simp [winoGradConv3x3s1, winogradTransformFilter, conv2dNeonK3x3S1,
      conv2dNeonK3x3S2, conv2dNeonK1x1S1, conv2dNCHW, clearTensor, hf]

/-- C9: after the convolution stage, a present bias is added per output
channel broadcast over all spatial positions, then the activation is applied
elementwise: with a zero filter the pre-activation output equals the bias
vector broadcast at every coordinate, and under the clamp-at-limit
activation every output element lies in [0, limit]. -/
theorem bias_activation_spec (cfg : Conv2dConfig) (input : TensorFn)
    (filter : FilterFn) (bv : BiasFn) (prev : TensorFn) (b m h w : ℕ)
    (hf : ∀ a c i j, filter a c i j = 0) (hL : 0 ≤ cfg.reluxMaxLimit) :
    preActivationOutput cfg input filter (some bv) prev b m h w = bv m
  ∧ 0 ≤ runConv2d { cfg with activation := .relux } input filter (some bv)
        prev b m h w
  ∧ runConv2d { cfg with activation := .relux } input filter (some bv)
        prev b m h w ≤ cfg.reluxMaxLimit := by
  have hpre : ∀ cfg2 : Conv2dConfig,
      preActivationOutput cfg2 input filter (some bv) prev b m h w = bv m := by
    intro cfg2
    unfold preActivationOutput addBias
    rw [convStage_zero_filter cfg2 input filter prev b m h w hf]
    simp
  refine ⟨hpre cfg, ?_, ?_⟩
  · unfold runConv2d doActivation
    simp only []
    exact le_min (le_max_right _ _) hL
  · unfold runConv2d doActivation
    exact min_le_right _ _

/-- The all-zero filter used in the C9 witness. -/
def zeroFilter : FilterFn := fun _ _ _ _ => 0

/-- The bias vector of the C9 witness. -/
def c9Bias : BiasFn := fun _ => 5

/-- The configuration of the C9 witness: 3x3 stride-1, clamp limit 7. -/
def c9Cfg : Conv2dConfig :=
  { batch := 1, inChannels := 1, inHeight := 4, inWidth := 4, outChannels := 1,
    filterH := 3, filterW := 3, strideH := 1, strideW := 1, dilationH := 1,
    dilationW := 1, padH := 0, padW := 0, activation := .relux,
    reluxMaxLimit := 7 }

/-- Witness for C9: the theorem applied at a concrete configuration with a
zero filter and bias 5, clamp limit 7. -/
theorem bias_activation_spec_witness :
    (∀ a c i j, zeroFilter a c i j = 0) ∧ (0 : Val) ≤ c9Cfg.reluxMaxLimit ∧
    (preActivationOutput c9Cfg c7Input zeroFilter (some c9Bias) zeroTensor
        0 0 0 0 = c9Bias 0
    ∧ 0 ≤ runConv2d { c9Cfg with activation := .relux } c7Input zeroFilter
          (some c9Bias) zeroTensor 0 0 0 0
    ∧ runConv2d { c9Cfg with activation := .relux } c7Input zeroFilter
          (some c9Bias) zeroTensor 0 0 0 0 ≤ c9Cfg.reluxMaxLimit) :=
  ⟨fun _ _ _ _ => rfl, by norm_num [c9Cfg],
   bias_activation_spec c9Cfg c7Input zeroFilter c9Bias zeroTensor 0 0 0 0
     (fun _ _ _ _ => rfl) (by norm_num [c9Cfg])⟩

/-- C10: the operator resizes and zero-clears the output tensor (and
zero-clears any padded-output scratch) before the selected strategy runs, so
the final output is independent of the output tensor's contents prior to the
call: two calls differing only in the prior output contents agree
everywhere, in particular the accumulating generic strategy adds into an
all-zero buffer. -/
theorem output_independent_of_prior (cfg : Conv2dConfig) (input : TensorFn)
    (filter : FilterFn) (bias : Option BiasFn) (prev1 prev2 : TensorFn)
    (b m h w : ℕ) :
    runConv2d cfg input filter bias prev1 b m h w
      = runConv2d cfg input filter bias prev2 b m h w := by
  have hcs : convStage cfg input filter prev1 b m h w
      = convStage cfg input filter prev2 b m h w := by
    unfold convStage
    cases hs : cfgStrategy cfg <;> simp [clearTensor, conv2dNCHW]
  unfold runConv2d preActivationOutput addBias
  rw [hcs]

end MaceConv
